import Mathlib

/-!
Shallow embedding of the attack-activity data model
(src/module/data/activity/attack-data.mjs) and verification of its
specified properties.

JavaScript values are modelled with explicit Lean types: absent fields
(`undefined`/`null`) become `Option`, JS `Set` iteration order becomes a
`List` in insertion order, numeric `-Infinity` in the ability-modifier
comparison becomes the bottom element of `WithBot Int`, and the in-place
mutation performed by `transformTypeData` on its `source` argument is
made explicit by returning the updated source alongside the result.
-/

/-- One damage part (DamageData). `number = 0` and `denomination = ""` model
unset (falsy) values, matching the JS truthiness used by the source.
`custom` is a custom formula override; `base` tags the item's innate part. -/
structure DamagePart where
  number : Nat := 0
  denomination : String := ""
  custom : String := ""
  types : List String := []
  base : Bool := false
deriving Repr, DecidableEq

/-- Modelled from the spec: the DamageData formula value (class DamageData is
outside src/). A damage part is "formula + damage-type(s) + flags"; a custom
formula overrides the dice expression built from number and denomination. -/
def DamagePart.formula (d : DamagePart) : String :=
  if d.custom ≠ "" then d.custom else toString d.number ++ d.denomination

/-- Modelled from the spec: DamageData.steppedDenomination (outside src/) as
used by the versatile fill rule, which inherits the unset denomination "from
the original base part (fill-if-empty)": it yields the part's denomination. -/
def DamagePart.steppedDenomination (d : DamagePart) : String :=
  d.denomination

/-- Proficiency information on the owning item (item.system.prof). -/
structure Prof where
  hasProficiency : Bool := false
  term : Int := 0
deriving Repr, DecidableEq

/-- The slice of the owning item (this.item / this.item.system) read by the
attack activity. `availableAbilities = some s` models an item declaring an
explicit override set (insertion order); `none` models no override. -/
structure ItemSystem where
  type : String := ""
  availableAbilities : Option (List String) := none
  attackType : Option String := none
  attackClassification : Option String := none
  criticalThreshold : Option Nat := none
  prof : Option Prof := none
  magicalBonus : Option Int := none
  magicAvailable : Bool := false
  isVersatile : Bool := false
  damageBase : Option DamagePart := none
  damageVersatile : DamagePart := {}
deriving Repr, DecidableEq

/-- The slice of the owning actor read by the attack activity. `abilities`
maps an ability id to its modifier (`none` = no such ability on the actor);
`bonuses` maps an action-type code to the configured attack bonus formula. -/
structure ActorSystem where
  type : String := ""
  abilities : String → Option Int := fun _ => none
  bonuses : String → Option String := fun _ => none
  spellcasting : Option String := none
  spellcastingClassAbilities : List String := []
  meleeCriticalDamageDice : Option Int := none

/-- Raw attack fields of the activity (schema `attack` subtree). -/
structure AttackFields where
  ability : String := ""
  bonus : String := ""
  criticalThreshold : Option Nat := none
  flat : Bool := false
  typeValue : String := ""
  typeClassification : String := ""
deriving Repr, DecidableEq

/-- Raw damage fields of the activity (schema `damage` subtree). -/
structure DamageFields where
  criticalBonus : String := ""
  includeBase : Bool := true
  parts : List DamagePart := []
deriving Repr, DecidableEq

/-- Computed display labels (ephemeral output fields). -/
structure Labels where
  modifier : String := ""
  toHit : String := ""
  damage : String := ""
deriving Repr, DecidableEq

/-- The attack activity state: canonical raw fields plus computed labels. -/
structure ActivityState where
  attack : AttackFields := {}
  damage : DamageFields := {}
  labels : Labels := {}
deriving Repr, DecidableEq

/-- Modelled from the spec: CONFIG.DND5E.defaultAbilities.meleeAttack
(the default-ability lookup table is outside src/). -/
def defaultMeleeAbility : String := "str"

/-- Modelled from the spec: CONFIG.DND5E.defaultAbilities.rangedAttack. -/
def defaultRangedAbility : String := "dex"

/-- Action-type code of the activity (the actionType getter):
melee/ranged prefix and weapon/spell suffix. -/
def actionType (atk : AttackFields) : String :=
  (if atk.typeValue = "ranged" then "r" else "m")
    ++ (if atk.typeClassification = "spell" then "sak" else "wak")

/-- Insertion-order deduplication, matching construction of a JS Set from a
list (first occurrence wins, order preserved). -/
def dedupFirst : List String → List String
  | [] => []
  | a :: l => a :: dedupFirst (l.filter (fun x => x ≠ a))
termination_by l => l.length
decreasing_by
  exact Nat.lt_succ_of_le (List.length_filter_le _ _)

/-- The availableAbilities getter: defer to the item's override set when
present; for spell attacks use the actor's designated spellcasting ability or
the union over spellcasting classes; otherwise use the melee or ranged
default ability, or both for an NPC actor. -/
def availableAbilities (item : ItemSystem) (actor : Option ActorSystem)
    (atk : AttackFields) : List String :=
  match item.availableAbilities with
  | some s => s
  | none =>
    if atk.typeClassification = "spell" then
      match actor with
      | none => []
      | some act =>
        match act.spellcasting with
        | some sc =>
          if sc ≠ "" then [sc] else dedupFirst act.spellcastingClassAbilities
        | none => dedupFirst act.spellcastingClassAbilities
    else
      if (match actor with | some act => act.type | none => "") = "npc" then
        [defaultMeleeAbility, defaultRangedAbility]
      else
        [if atk.typeValue = "melee" then defaultMeleeAbility
         else defaultRangedAbility]

/-- The JS expression `abilities[ability]?.mod ?? -Infinity`: a missing
ability contributes the bottom element. -/
def modValue (abilities : String → Option Int) (ab : String) : WithBot Int :=
  match abilities ab with
  | some v => (v : WithBot Int)
  | none => ⊥

/-- The reduce step used by the ability getter: keep the accumulator unless
the next element has a strictly greater modifier. -/
def pickHighest (m : String → WithBot Int) (largest : String) :
    List String → String
  | [] => largest
  | ab :: rest => pickHighest m (if m largest < m ab then ab else largest) rest

/-- The ability getter: null for an empty available set, the sole element of
a singleton, otherwise the reduce over the whole set seeded with its first
element, comparing actor ability modifiers (missing actor gives an empty
abilities record). -/
def ability (item : ItemSystem) (actor : Option ActorSystem)
    (atk : AttackFields) : Option String :=
  match availableAbilities item actor atk with
  | [] => none
  | [a] => some a
  | a :: b :: rest =>
    let abilities := match actor with
      | some act => act.abilities
      | none => fun _ => none
    some (pickHighest (modValue abilities) a (a :: b :: rest))

/-- Whether the modifier of `x` is at least the modifier of every element of
`L`: the test for "has the highest current modifier" in the spec rule. -/
def isMaxIn (m : String → WithBot Int) (L : List String) (x : String) :
    Bool :=
  L.all (fun y => decide (m y ≤ m x))

/-- The specification's resolvedAbility rule, stated from the spec's words:
empty set gives "none" (modelled as Option.none); a single element is
returned; with several elements and an actor, the element with the highest
current modifier wins, ties broken by first-seen order (so the result is the
first element whose modifier is greatest); without an actor, the first
element. -/
def specResolvedAbility (avail : List String) (actor : Option ActorSystem) :
    Option String :=
  match avail with
  | [] => none
  | [a] => some a
  | _ =>
    match actor with
    | none => avail.head?
    | some act => avail.find? (isMaxIn (modValue act.abilities) avail)

/-- Minimum of two optional naturals where an absent value acts as the
identity, mirroring `Math.min` over values defaulted to Infinity. -/
def optMin (a b : Option Nat) : Option Nat :=
  match a, b with
  | none, b => b
  | some x, none => some x
  | some x, some y => some (min x y)

/-- The criticalThreshold getter: minimum of the activity override, the item
override, and the (never set) ammunition override, each treated as Infinity
when unset; 20 when the minimum is still Infinity. -/
def criticalThreshold (item : ItemSystem) (atk : AttackFields) : Nat :=
  let ammoThreshold : Option Nat := none
  let threshold := optMin atk.criticalThreshold
    (optMin item.criticalThreshold ammoThreshold)
  match threshold with
  | some t => t
  | none => 20

/-- One legacy damage part of the pre-migration flat record. -/
structure LegacyPart where
  formula : String := ""
  damageType : String := ""
deriving Repr, DecidableEq

/-- Legacy `system.attack` subobject. -/
structure LegacyAttack where
  bonus : Option String := none
  flat : Option Bool := none
deriving Repr, DecidableEq

/-- Legacy `system.critical` subobject. -/
structure LegacyCritical where
  threshold : Option Nat := none
  damage : Option String := none
deriving Repr, DecidableEq

/-- Legacy `system.damage` subobject. -/
structure LegacyDamage where
  parts : List LegacyPart := []
deriving Repr, DecidableEq

/-- Legacy flat `system` record of the source document. -/
structure LegacySystem where
  damage : Option LegacyDamage := none
  ability : Option String := none
  attack : Option LegacyAttack := none
  critical : Option LegacyCritical := none
  actionType : String := ""
deriving Repr, DecidableEq

/-- Legacy source document: its kind and its system data. -/
structure LegacySource where
  type : String := ""
  system : LegacySystem := {}
deriving Repr, DecidableEq

/-- The activity record produced by migration: the nested attack fields plus
the migrated damage configuration. -/
structure ActivityRecord where
  attack : AttackFields := {}
  damageCriticalBonus : Option String := none
  damageIncludeBase : Bool := true
  damageParts : List LegacyPart := []
deriving Repr, DecidableEq

/-- Modelled from the spec: BaseActivityData.transformDamagePartData (outside
src/) maps one legacy damage part into the activity's damage-parts list
unchanged ("all legacy parts become damage.parts unchanged"). -/
def transformDamagePartData (_source : LegacySource) (part : LegacyPart) :
    LegacyPart :=
  part

/-- transformTypeData. The JS function mutates `source` in place when the
source is a weapon with legacy damage parts (keeping only the first part on
the source); the mutation is made explicit by returning the updated source
together with the merged activity record. -/
def transformTypeData (source : LegacySource)
    (activityData : ActivityRecord) : LegacySource × ActivityRecord :=
  let damageParts := match source.system.damage with
    | some d => d.parts
    | none => []
  let step : LegacySource × List LegacyPart :=
    if source.type = "weapon" then
      match damageParts with
      | base :: rest =>
        ({ source with system := { source.system with
            damage := some { parts := [base] } } }, rest)
      | [] => (source, damageParts)
    else (source, damageParts)
  let source := step.1
  let damageParts := step.2
  (source,
   { activityData with
     attack :=
       { ability := source.system.ability.getD ""
         bonus := (source.system.attack.bind (fun a => a.bonus)).getD ""
         criticalThreshold := source.system.critical.bind
           (fun c => c.threshold)
         flat := (source.system.attack.bind (fun a => a.flat)).getD false
         typeValue := if source.system.actionType.startsWith "m"
           then "melee" else "ranged"
         typeClassification := if source.system.actionType.endsWith "wak"
           then "weapon" else "spell" }
     damageCriticalBonus := source.system.critical.bind (fun c => c.damage)
     damageIncludeBase := true
     damageParts := damageParts.map (transformDamagePartData source) })

/-- The derived-phase prepareData: fill-if-empty backfill of the attack type
from the owning item. The super call (BaseActivityData.prepareData, outside
src/) is modelled from the spec: the base derived phase also uses
fill-if-empty semantics and touches none of the fields modelled here, so it
contributes the identity on this state. -/
def prepareData (item : ItemSystem) (s : ActivityState) : ActivityState :=
  let v := if s.attack.typeValue = ""
    then item.attackType.getD "" else s.attack.typeValue
  let c := if s.attack.typeClassification = ""
    then item.attackClassification.getD "" else s.attack.typeClassification
  { s with attack := { s.attack with
      typeValue := v
      typeClassification := c } }

/-- Result of getAttackData: the roll-data context (only its `prof` binding
is relevant to the modelled fields) and the ordered term list. -/
structure AttackRollParts where
  profData : Option Int := none
  parts : List String := []
deriving Repr, DecidableEq

/-- The actor-dependent block of getAttackData: the ability modifier unless
the raw attack.ability field is "none"; the proficiency term, binding its
value into the context, when the item has proficiency; the actor-wide bonus
keyed by the action-type code when configured. -/
def actorAttackData (item : ItemSystem) (act : ActorSystem)
    (atk : AttackFields) : Option Int × List String :=
  let parts : List String := []
  let parts := if atk.ability ≠ "none" then parts ++ ["@mod"] else parts
  let step2 : Option Int × List String :=
    match item.prof with
    | some p =>
      if p.hasProficiency then (some p.term, parts ++ ["@prof"])
      else (none, parts)
    | none => (none, parts)
  let data := step2.1
  let parts := step2.2
  let parts := match act.bonuses (actionType atk) with
    | some b => if b ≠ "" then parts ++ [b] else parts
    | none => parts
  (data, parts)

/-- getAttackData: the actor block above runs only with an actor present and
a non-flat attack; then unconditionally the activity's own bonus when
non-empty, and the item's magical bonus when non-zero, available, and not
suppressed by flat mode. -/
def getAttackData (item : ItemSystem) (actor : Option ActorSystem)
    (atk : AttackFields) : AttackRollParts :=
  let step : Option Int × List String :=
    match actor with
    | none => (none, [])
    | some act =>
      if atk.flat then (none, []) else actorAttackData item act atk
  let data := step.1
  let parts := step.2
  let parts := if atk.bonus ≠ "" then parts ++ [atk.bonus] else parts
  let parts := match item.magicalBonus with
    | some n =>
      if n ≠ 0 ∧ item.magicAvailable ∧ atk.flat = false
      then parts ++ [toString n] else parts
    | none => parts
  { profData := data, parts := parts }

/-- The roll-data snapshot consumed by damage processing; only the ability
modifier binding is relevant to the modelled computation. -/
structure RollData where
  mod : Int := 0
deriving Repr, DecidableEq

/-- One produced damage roll configuration. -/
structure DamageRoll where
  parts : List String := []
  dataMod : Int := 0
  dataMagicalBonus : Option Int := none
  base : Bool := false
  criticalBonusDice : Option Int := none
deriving Repr, DecidableEq

/-- Modelled from the spec: BaseActivityData._processDamagePart (outside
src/) builds a roll result from one damage part: the part's formula as the
initial term, the roll-data snapshot, and a base flag that is false unless
set by the caller. -/
def superProcessDamagePart (damage : DamagePart) (rollData : RollData) :
    DamageRoll :=
  { parts := [damage.formula], dataMod := rollData.mod }

/-- The versatile substitution block of _processDamagePart: clone the item's
versatile damage definition, tag it base, fill unset denomination and number
from the processed part, and take the processed part's types. -/
def versatileSwap (item : ItemSystem) (damage : DamagePart) : DamagePart :=
  let versatile := item.damageVersatile
  let versatile := { versatile with base := true }
  let versatile := { versatile with denomination :=
    if versatile.denomination = "" then damage.steppedDenomination
    else versatile.denomination }
  let versatile := { versatile with number :=
    if versatile.number = 0 then damage.number else versatile.number }
  { versatile with types := damage.types }

/-- Substring test, modelling the JS `String.prototype.includes`. -/
def strContains (s pat : String) : Bool :=
  decide (pat.toList <:+: s.toList)

/-- _processDamagePart as written in the source. For a non-base part the
source calls the base implementation but, lacking a `return`, discards the
result and falls through to the base-part handling; the discarded call has
no effect on the state modelled here, so the fall-through alone remains.
Then: versatile substitution when the item is versatile and the mode is
twoHanded; the roll is built and flagged base = true; for weapon items an
ability-modifier term is ensured unless an off-hand attack has a
non-negative modifier, and an available magical bonus is appended with its
context binding; a non-zero melee critical-damage-dice actor flag is
attached for mwak attacks. -/
def processDamagePart (item : ItemSystem) (actor : Option ActorSystem)
    (atk : AttackFields) (mode : String) (rollData : RollData)
    (damage : DamagePart) : DamageRoll :=
  let damage :=
    if item.isVersatile ∧ mode = "twoHanded" then versatileSwap item damage
    else damage
  let roll := superProcessDamagePart damage rollData
  let roll := { roll with base := true }
  let roll :=
    if item.type = "weapon" then
      let includeMod := mode ≠ "offHand" ∨ roll.dataMod < 0
      let roll :=
        if includeMod ∧ (roll.parts.any (fun p => strContains p "@mod")) = false
        then { roll with parts := roll.parts ++ ["@mod"] } else roll
      match item.magicalBonus with
      | some n =>
        if n ≠ 0 ∧ item.magicAvailable then
          { roll with
            parts := roll.parts ++ ["@magicalBonus"]
            dataMagicalBonus := some n }
        else roll
      | none => roll
    else roll
  let criticalBonusDice := (match actor with
    | some act => act.meleeCriticalDamageDice
    | none => none).getD 0
  if actionType atk = "mwak" ∧ criticalBonusDice ≠ 0 then
    { roll with criticalBonusDice := some criticalBonusDice }
  else roll

/-- Modelled from the spec: the damage display label produced by
prepareDamageLabel (outside src/), a computed-label function of the damage
parts; its exact text is outside the modelled claims. -/
def damageLabel (parts : List DamagePart) (_rollData : RollData) : String :=
  String.intercalate ", " (parts.map (fun p => p.formula))

/-- The opening block of prepareFinalData: prepend the item's base damage
part (cloned and tagged base = true) to damage.parts when damage.includeBase
is set and the item defines base damage with a non-empty formula
(safePropertyExists plus the formula truthiness check). -/
def prependIncludeBase (item : ItemSystem) (s : ActivityState) :
    ActivityState :=
  match item.damageBase with
  | some bp =>
    if s.damage.includeBase ∧ bp.formula ≠ "" then
      { s with damage := { s.damage with
          parts := { bp with base := true } :: s.damage.parts } }
    else s
  | none => s

/-- The label-writing tail of prepareFinalData: the damage label, the
deterministic modifier label, and the to-hit label with its sign prefix. -/
def writeFinalLabels (simplify : String → Bool → String) (item : ItemSystem)
    (actor : Option ActorSystem) (rollData : RollData) (s : ActivityState) :
    ActivityState :=
  let s := { s with labels := { s.labels with
    damage := damageLabel s.damage.parts rollData } }
  let ad := getAttackData item actor s.attack
  let formula := String.intercalate "+" ad.parts
  let detLabel := simplify formula true
  let s := { s with labels := { s.labels with
    modifier := if detLabel = "" then "0" else detLabel } }
  let f := simplify formula false
  let f := if f = "" then "0" else f
  { s with labels := { s.labels with
    toHit := if (f.startsWith "+" ∨ f.startsWith "-") = false
      then "+ " ++ f else f } }

/-- prepareFinalData proper: the base-part prepend followed by the label
writes, with the roll-data snapshot defaulted when absent. The formula
simplifier (simplify-roll-formula.mjs, outside src/) is an external
collaborator passed as the `simplify` argument (formula, deterministic
flag). The super call (BaseActivityData.prepareFinalData, outside src/) is
modelled from the spec: it writes only computed display fields and is the
identity on the state modelled here. -/
def prepareFinalData (simplify : String → Bool → String) (item : ItemSystem)
    (actor : Option ActorSystem) (rollData : Option RollData)
    (s : ActivityState) : ActivityState :=
  writeFinalLabels simplify item actor (rollData.getD {})
    (prependIncludeBase item s)

/-- C1: for every attack activity with attack.flat = true, getAttackData
produces no ability-modifier, proficiency, actor-bonus, or magical-bonus
term, for every actor and item state: the term list is exactly the
activity's own attack.bonus when non-empty and empty otherwise, and no
proficiency value is bound into the context. -/
theorem flat_attack_suppresses_modifier_terms (item : ItemSystem)
    (actor : Option ActorSystem) (atk : AttackFields)
    (h : atk.flat = true) :
    (getAttackData item actor atk).parts
      = (if atk.bonus = "" then [] else [atk.bonus])
    ∧ (getAttackData item actor atk).profData = none := by
  unfold getAttackData
  cases actor <;> cases hm : item.magicalBonus <;> simp [h]

/-- Witness for the flat-attack theorem: an item with proficiency, a
magical bonus, and an actor present still yields only the explicit bonus. -/
theorem flat_attack_suppresses_modifier_terms_witness :
    (getAttackData
      { prof := some { hasProficiency := true, term := 2 }
        magicalBonus := some 1
        magicAvailable := true }
      (some {}) { flat := true, bonus := "1d4" }).parts = ["1d4"]
    ∧ (getAttackData
      { prof := some { hasProficiency := true, term := 2 }
        magicalBonus := some 1
        magicAvailable := true }
      (some {}) { flat := true, bonus := "1d4" }).profData = none :=
  flat_attack_suppresses_modifier_terms
    { prof := some { hasProficiency := true, term := 2 }
      magicalBonus := some 1
      magicAvailable := true }
    (some {}) { flat := true, bonus := "1d4" } rfl

/-- The label-writing tail never touches the attack fields. -/
theorem writeFinalLabels_attack (simplify : String → Bool → String)
    (item : ItemSystem) (actor : Option ActorSystem) (rollData : RollData)
    (s : ActivityState) :
    (writeFinalLabels simplify item actor rollData s).attack = s.attack :=
  rfl

/-- The label-writing tail never touches the damage fields. -/
theorem writeFinalLabels_damage (simplify : String → Bool → String)
    (item : ItemSystem) (actor : Option ActorSystem) (rollData : RollData)
    (s : ActivityState) :
    (writeFinalLabels simplify item actor rollData s).damage = s.damage :=
  rfl

/-- The base-part prepend touches neither the attack fields nor the damage
fields other than the parts list. -/
theorem prependIncludeBase_frame (item : ItemSystem) (s : ActivityState) :
    (prependIncludeBase item s).attack = s.attack
    ∧ (prependIncludeBase item s).damage.includeBase = s.damage.includeBase
    ∧ (prependIncludeBase item s).damage.criticalBonus
        = s.damage.criticalBonus := by
  unfold prependIncludeBase
  cases item.damageBase with
  | none => exact ⟨rfl, rfl, rfl⟩
  | some bp =>
    dsimp only
    by_cases hc : s.damage.includeBase ∧ bp.formula ≠ ""
    · rw [if_pos hc]; exact ⟨rfl, rfl, rfl⟩
    · rw [if_neg hc]; exact ⟨rfl, rfl, rfl⟩

/-- Exact behaviour of the base-part prepend on the damage configuration:
prepend under the includeBase condition, identity otherwise. -/
theorem prependIncludeBase_spec (item : ItemSystem) (s : ActivityState) :
    (∀ bp, item.damageBase = some bp → s.damage.includeBase = true →
      bp.formula ≠ "" →
      prependIncludeBase item s = { s with damage := { s.damage with
        parts := { bp with base := true } :: s.damage.parts } })
    ∧ ((match item.damageBase with
        | some bp => s.damage.includeBase = false ∨ bp.formula = ""
        | none => True) →
        prependIncludeBase item s = s) := by
  unfold prependIncludeBase
  cases hb : item.damageBase with
  | none => exact ⟨fun bp h => by simp at h, fun _ => rfl⟩
  | some bp =>
    dsimp only
    constructor
    · intro bp2 h2 hinc hform
      simp only [Option.some.injEq] at h2
      subst h2
      rw [if_pos ⟨hinc, hform⟩]
    · intro hfal
      rcases hfal with hf | hf
      · rw [if_neg (fun h => absurd h.1 (by simp [hf]))]
      · rw [if_neg (fun h => h.2 hf)]

/-- C2 counterexample: prepareFinalData does write into the canonical raw
damage configuration. With damage.includeBase = true (its schema default)
and an item defining base damage with a non-empty formula, a final-phase
pass prepends the base part to damage.parts, so damage.parts differs before
and after the pass, and a second pass differs from a single pass. -/
theorem prepare_final_data_mutates_damage_parts :
    (prepareFinalData (fun f _ => f)
      { damageBase := some { number := 1, denomination := "d8" } }
      none none {}).damage.parts ≠ ({} : ActivityState).damage.parts
    ∧ (prepareFinalData (fun f _ => f)
        { damageBase := some { number := 1, denomination := "d8" } }
        none none
        (prepareFinalData (fun f _ => f)
          { damageBase := some { number := 1, denomination := "d8" } }
          none none {})).damage.parts
      ≠ (prepareFinalData (fun f _ => f)
          { damageBase := some { number := 1, denomination := "d8" } }
          none none {}).damage.parts := by
  constructor <;> decide

/-- C2 (amended): prepareFinalData never writes the attack fields, the
damage critical bonus, or the includeBase flag; it writes the canonical
damage.parts only by prepending the item's base damage part (tagged
base = true) when damage.includeBase is set and the item defines base
damage with a non-empty formula, and leaves the whole canonical damage
configuration unchanged otherwise, for every simplifier, actor, and roll
data snapshot. -/
theorem prepare_final_data_frame (simplify : String → Bool → String)
    (item : ItemSystem) (actor : Option ActorSystem)
    (rollData : Option RollData) (s : ActivityState) :
    (prepareFinalData simplify item actor rollData s).attack = s.attack
    ∧ (prepareFinalData simplify item actor rollData s).damage.includeBase
        = s.damage.includeBase
    ∧ (prepareFinalData simplify item actor rollData s).damage.criticalBonus
        = s.damage.criticalBonus
    ∧ (∀ bp, item.damageBase = some bp → s.damage.includeBase = true →
        bp.formula ≠ "" →
        (prepareFinalData simplify item actor rollData s).damage.parts
          = { bp with base := true } :: s.damage.parts)
    ∧ ((match item.damageBase with
        | some bp => s.damage.includeBase = false ∨ bp.formula = ""
        | none => True) →
        (prepareFinalData simplify item actor rollData s).damage
          = s.damage) := by
  unfold prepareFinalData
  refine ⟨?_, ?_, ?_, ?_, ?_⟩
  · rw [writeFinalLabels_attack]
    exact (prependIncludeBase_frame item s).1
  · rw [writeFinalLabels_damage]
    exact (prependIncludeBase_frame item s).2.1
  · rw [writeFinalLabels_damage]
    exact (prependIncludeBase_frame item s).2.2
  · intro bp h hinc hform
    rw [writeFinalLabels_damage,
      (prependIncludeBase_spec item s).1 bp h hinc hform]
  · intro hfal
    rw [writeFinalLabels_damage, (prependIncludeBase_spec item s).2 hfal]

/-- Witness for the prepareFinalData frame theorem: with no item base
damage, a final-phase pass leaves the canonical damage configuration of the
default state unchanged. -/
theorem prepare_final_data_frame_witness :
    (prepareFinalData (fun f _ => f) {} none none {}).damage
      = ({} : ActivityState).damage :=
  (prepare_final_data_frame (fun f _ => f) {} none none {}).2.2.2.2 trivial


/-- C3 counterexample: transformTypeData is not pure in its source record.
For a weapon source with two legacy damage parts, the call truncates the
source's legacy damage-parts list to its first element, so the source
record after the call differs from the input. -/
theorem transform_type_data_mutates_weapon_source :
    (transformTypeData { type := "weapon", system := { damage := some { parts := [{ formula := "1d8" }, { formula := "2d6" }] }, actionType := "mwak" } } {}).1
      = { type := "weapon", system := { damage := some { parts := [{ formula := "1d8" }] }, actionType := "mwak" } }
    ∧ (transformTypeData { type := "weapon", system := { damage := some { parts := [{ formula := "1d8" }, { formula := "2d6" }] }, actionType := "mwak" } } {}).1
      ≠ { type := "weapon", system := { damage := some { parts := [{ formula := "1d8" }, { formula := "2d6" }] }, actionType := "mwak" } } := by
  constructor
  · rfl
  · decide

/-- C3 (amended): transformTypeData leaves the source record unchanged
except for weapon sources with a non-empty legacy damage-parts list, where
the only mutation is truncating source.system.damage.parts to its first
element (moved out to serve as the item's base damage); the remaining legacy
parts become the activity's damage parts. -/
theorem transform_type_data_mutation_scope (source : LegacySource)
    (act : ActivityRecord) :
    (¬ (source.type = "weapon"
        ∧ (match source.system.damage with
           | some d => d.parts
           | none => []) ≠ []) →
      (transformTypeData source act).1 = source)
    ∧ (∀ d base rest, source.type = "weapon" →
        source.system.damage = some d → d.parts = base :: rest →
        (transformTypeData source act).1
          = { source with system := { source.system with
              damage := some { parts := [base] } } }
        ∧ (transformTypeData source act).2.damageParts
          = rest.map (transformDamagePartData
              { source with system := { source.system with
                damage := some { parts := [base] } } })) := by
  constructor
  · intro h
    unfold transformTypeData
    by_cases hw : source.type = "weapon"
    · cases hd : source.system.damage with
      | none => simp [hw]
      | some d =>
        cases hp : d.parts with
        | nil => simp [hw, hd, hp]
        | cons b r => exact absurd ⟨hw, by rw [hd]; simp [hp]⟩ h
    · simp [hw]
  · intro d base rest hw hd hp
    unfold transformTypeData
    rw [hd]
    simp only [hw, hp]
    exact ⟨rfl, rfl⟩

/-- Witness for the transformTypeData mutation-scope theorem: a non-weapon
source with legacy parts is unchanged, and a weapon source with two parts
has the second part migrated to the activity's damage parts. -/
theorem transform_type_data_mutation_scope_witness :
    (transformTypeData { type := "spell", system := { damage := some { parts := [{ formula := "1d8" }] }, actionType := "rsak" } } {}).1
      = { type := "spell", system := { damage := some { parts := [{ formula := "1d8" }] }, actionType := "rsak" } }
    ∧ (transformTypeData { type := "weapon", system := { damage := some { parts := [{ formula := "1d8" }, { formula := "2d6" }] }, actionType := "mwak" } } {}).2.damageParts
      = [{ formula := "2d6" }] := by
  constructor
  · exact (transform_type_data_mutation_scope { type := "spell", system := { damage := some { parts := [{ formula := "1d8" }] }, actionType := "rsak" } } {}).1 (by decide)
  · exact ((transform_type_data_mutation_scope { type := "weapon", system := { damage := some { parts := [{ formula := "1d8" }, { formula := "2d6" }] }, actionType := "mwak" } } {}).2 { parts := [{ formula := "1d8" }, { formula := "2d6" }] } { formula := "1d8" } [{ formula := "2d6" }] rfl rfl rfl).2

/-- C4: evaluation of _processDamagePart at a damage part that is not the
tagged base part. Because the source calls the base implementation without
returning its result, the non-base part falls through to the base-part
handling and the produced roll is flagged base = true, contradicting the
documented rule that the base flag is true iff the part was tagged base. -/
theorem process_damage_part_nonbase_flagged_base :
    ({ number := 2, denomination := "d6", base := false } : DamagePart).base
      = false
    ∧ (processDamagePart { type := "weapon" } none {} "oneHanded" {}
        { number := 2, denomination := "d6", base := false }).base = true :=
  ⟨rfl, rfl⟩

/-- C5 counterexample: the versatile substitution does not use fill-if-empty
semantics for the damage types. A versatile definition with its own type
list ["slashing"] is overwritten with the base part's ["bludgeoning"]. -/
theorem versatile_swap_overwrites_types :
    ({ isVersatile := true, damageVersatile := { types := ["slashing"] } } : ItemSystem).damageVersatile.types = ["slashing"]
    ∧ (versatileSwap { isVersatile := true, damageVersatile := { types := ["slashing"] } } { number := 1, denomination := "d8", types := ["bludgeoning"], base := true }).types = ["bludgeoning"]
    ∧ (versatileSwap { isVersatile := true, damageVersatile := { types := ["slashing"] } } { number := 1, denomination := "d8", types := ["bludgeoning"], base := true }).types
      ≠ ({ isVersatile := true, damageVersatile := { types := ["slashing"] } } : ItemSystem).damageVersatile.types := by
  refine ⟨rfl, rfl, ?_⟩
  decide


/-- C5 (amended): when the item is versatile and the attack mode is
twoHanded, _processDamagePart substitutes the processed part with a clone of
the item's versatile damage definition tagged base = true; an unset
denomination and an unset number are filled from the original part
(fill-if-empty), while the types are always taken from the original part,
overwriting any types set on the versatile definition; the roll built under
these hypotheses starts from the substituted part's formula. -/
theorem versatile_swap_fill (item : ItemSystem) (actor : Option ActorSystem)
    (atk : AttackFields) (mode : String) (rd : RollData)
    (damage : DamagePart) (h1 : item.isVersatile = true)
    (h2 : mode = "twoHanded") :
    (versatileSwap item damage).base = true
    ∧ (versatileSwap item damage).denomination
        = (if item.damageVersatile.denomination = "" then damage.denomination
           else item.damageVersatile.denomination)
    ∧ (versatileSwap item damage).number
        = (if item.damageVersatile.number = 0 then damage.number
           else item.damageVersatile.number)
    ∧ (versatileSwap item damage).types = damage.types
    ∧ (processDamagePart item actor atk mode rd damage).parts.head?
        = some (versatileSwap item damage).formula := by
  refine ⟨rfl, rfl, rfl, rfl, ?_⟩
  subst h2
  unfold processDamagePart superProcessDamagePart
  rw [if_pos (show item.isVersatile = true
    ∧ ("twoHanded" : String) = "twoHanded" from ⟨h1, rfl⟩)]
  cases hmb : item.magicalBonus <;> dsimp only <;> split_ifs <;> simp

/-- Witness for the versatile-fill theorem: a versatile weapon attacked
two-handed with base denomination d8 and versatile denomination unset yields
base damage with denomination d8 and the original types. -/
theorem versatile_swap_fill_witness :
    (versatileSwap { isVersatile := true, type := "weapon" } { number := 1, denomination := "d8", types := ["bludgeoning"], base := true }).base = true
    ∧ (versatileSwap { isVersatile := true, type := "weapon" } { number := 1, denomination := "d8", types := ["bludgeoning"], base := true }).denomination = "d8"
    ∧ (versatileSwap { isVersatile := true, type := "weapon" } { number := 1, denomination := "d8", types := ["bludgeoning"], base := true }).number = 1
    ∧ (versatileSwap { isVersatile := true, type := "weapon" } { number := 1, denomination := "d8", types := ["bludgeoning"], base := true }).types = ["bludgeoning"] := by
  have h := versatile_swap_fill { isVersatile := true, type := "weapon" }
    none {} "twoHanded" {}
    { number := 1, denomination := "d8", types := ["bludgeoning"], base := true }
    rfl rfl
  exact ⟨h.1, h.2.1, h.2.2.1, h.2.2.2.1⟩

/-- C6 counterexample: the resolved critical threshold is not 20 only when
every override is unset. With the activity override explicitly set to 20 and
the item override unset, the resolved threshold is 20 even though an
override is present, so the claimed equivalence fails in the only-if
direction. -/
theorem critical_threshold_twenty_with_override :
    criticalThreshold {} { criticalThreshold := some 20 } = 20
    ∧ ({ criticalThreshold := some 20 } : AttackFields).criticalThreshold
        ≠ none := by
  exact ⟨rfl, by decide⟩

/-- C6 (amended): criticalThreshold is the minimum of the set overrides with
unset treated as plus-infinity, and it is 20 whenever every override is
unset (the converse fails only for an explicit override equal to 20): both
unset gives 20; one set gives that override; both set give their minimum. -/
theorem critical_threshold_min_semantics (item : ItemSystem)
    (atk : AttackFields) :
    (atk.criticalThreshold = none → item.criticalThreshold = none →
      criticalThreshold item atk = 20)
    ∧ (∀ n, atk.criticalThreshold = some n → item.criticalThreshold = none →
        criticalThreshold item atk = n)
    ∧ (∀ n, atk.criticalThreshold = none → item.criticalThreshold = some n →
        criticalThreshold item atk = n)
    ∧ (∀ n m, atk.criticalThreshold = some n →
        item.criticalThreshold = some m →
        criticalThreshold item atk = min n m) := by
  refine ⟨?_, ?_, ?_, ?_⟩ <;> unfold criticalThreshold optMin
  · intro h1 h2; rw [h1, h2]
  · intro n h1 h2; rw [h1, h2]
  · intro n h1 h2; rw [h1, h2]
  · intro n m h1 h2; rw [h1, h2]

/-- Witness for the critical-threshold theorem: activity override 19 with
item override unset resolves to 19, and all overrides unset resolve to
20. -/
theorem critical_threshold_min_semantics_witness :
    criticalThreshold {} { criticalThreshold := some 19 } = 19
    ∧ criticalThreshold {} {} = 20 :=
  ⟨(critical_threshold_min_semantics {} { criticalThreshold := some 19 }).2.1
      19 rfl rfl,
   (critical_threshold_min_semantics {} {}).1 rfl rfl⟩

/-- C9 counterexample: availableAbilities for a weapon attack of an NPC
actor is not independent of item-level state. An item declaring an explicit
singleton override set makes the getter return that singleton verbatim, not
the melee/ranged pair. -/
theorem available_abilities_item_override_singleton :
    availableAbilities { availableAbilities := some ["dex"] } (some { type := "npc" }) { typeClassification := "weapon" } = ["dex"]
    ∧ (["dex"] : List String).length = 1
    ∧ (["dex"] : List String)
        ≠ [defaultMeleeAbility, defaultRangedAbility] := by
  refine ⟨rfl, rfl, ?_⟩
  decide

/-- C9 (amended): for an NPC actor and a weapon or unarmed attack, when the
item does not declare an explicit available-abilities override set,
availableAbilities returns exactly the two-element melee/ranged default
pair, regardless of attack.type.value. -/
theorem npc_available_abilities_pair (item : ItemSystem)
    (act : ActorSystem) (atk : AttackFields)
    (h1 : item.availableAbilities = none) (h2 : act.type = "npc")
    (h3 : atk.typeClassification ≠ "spell") :
    availableAbilities item (some act) atk
      = [defaultMeleeAbility, defaultRangedAbility]
    ∧ defaultMeleeAbility ≠ defaultRangedAbility := by
  constructor
  · unfold availableAbilities
    rw [h1]
    simp [h3, h2]
  · decide

/-- Witness for the NPC available-abilities theorem: a melee weapon attack
of an NPC actor without item override yields the melee/ranged pair. -/
theorem npc_available_abilities_pair_witness :
    availableAbilities {} (some { type := "npc" }) { typeValue := "melee", typeClassification := "weapon" }
      = [defaultMeleeAbility, defaultRangedAbility]
    ∧ defaultMeleeAbility ≠ defaultRangedAbility :=
  npc_available_abilities_pair {} { type := "npc" }
    { typeValue := "melee", typeClassification := "weapon" }
    rfl rfl (by decide)

/-- C10: the derived phase is idempotent. prepareData only fills
attack.type.value and attack.type.classification when they are empty and
never overwrites a set value, so a second run over the result of a first run
changes nothing. -/
theorem prepare_data_idempotent (item : ItemSystem) (s : ActivityState) :
    prepareData item (prepareData item s) = prepareData item s := by
  unfold prepareData
  dsimp only
  by_cases hv : s.attack.typeValue = ""
  · by_cases hc : s.attack.typeClassification = ""
    · simp only [hv, hc, if_pos rfl]
      by_cases hiv : item.attackType.getD "" = ""
        <;> by_cases hic : item.attackClassification.getD "" = ""
        <;> simp [hiv, hic]
    · simp only [hv, hc, if_pos rfl, if_neg hc]
      by_cases hiv : item.attackType.getD "" = "" <;> simp [hiv, hc]
  · by_cases hc : s.attack.typeClassification = ""
    · simp only [hv, hc, if_neg hv, if_pos rfl]
      by_cases hic : item.attackClassification.getD "" = ""
        <;> simp [hic, hv]
    · simp [hv, hc]

/-- Closed form of the actor-dependent attack-term block: the proficiency
binding and the ordered concatenation of the conditional terms. -/
theorem actorAttackData_eq (item : ItemSystem) (act : ActorSystem)
    (atk : AttackFields) :
    actorAttackData item act atk
      = ((match item.prof with
          | some p => if p.hasProficiency then some p.term else none
          | none => none),
         (if atk.ability ≠ "none" then ["@mod"] else [])
           ++ (match item.prof with
               | some p => if p.hasProficiency then ["@prof"] else []
               | none => [])
           ++ (match act.bonuses (actionType atk) with
               | some b => if b ≠ "" then [b] else []
               | none => [])) := by
  unfold actorAttackData
  cases item.prof <;> cases act.bonuses (actionType atk) <;> dsimp only
    <;> split_ifs <;> simp

/-- C8 counterexample: with an actor present and attack.flat false, the
"@mod" term does not track the resolved ability. An item overriding the
available-ability set to be empty makes the resolved ability the "none"
sentinel, yet "@mod" is still included because the raw attack.ability field
(empty string) differs from the literal "none". -/
theorem attack_data_mod_despite_none_resolved :
    ability { availableAbilities := some [] } (some {}) {} = none
    ∧ "@mod" ∈ (getAttackData { availableAbilities := some [] } (some {}) {}).parts
    ∧ ({} : AttackFields).flat = false := by
  refine ⟨rfl, ?_, rfl⟩
  decide

/-- C8 (amended): with an actor present and attack.flat false, the term
list is, in order: "@mod" exactly when the raw attack.ability field is not
the literal "none" (not the dynamically resolved ability); "@prof" exactly
when the item reports proficiency, in which case the proficiency value is
bound into the evaluation context; the actor-wide bonus exactly when a
non-empty bonus is configured under the activity's action-type code; then
the activity bonus when non-empty and the available non-zero magical
bonus. -/
theorem attack_terms_characterization (item : ItemSystem)
    (act : ActorSystem) (atk : AttackFields) (h : atk.flat = false) :
    (getAttackData item (some act) atk).parts
      = (if atk.ability ≠ "none" then ["@mod"] else [])
        ++ (match item.prof with
            | some p => if p.hasProficiency then ["@prof"] else []
            | none => [])
        ++ (match act.bonuses (actionType atk) with
            | some b => if b ≠ "" then [b] else []
            | none => [])
        ++ (if atk.bonus ≠ "" then [atk.bonus] else [])
        ++ (match item.magicalBonus with
            | some n => if n ≠ 0 ∧ item.magicAvailable then [toString n]
              else []
            | none => [])
    ∧ (getAttackData item (some act) atk).profData
      = (match item.prof with
         | some p => if p.hasProficiency then some p.term else none
         | none => none) := by
  have hni : ¬ (atk.flat = true) := by simp [h]
  unfold getAttackData
  dsimp only
  rw [if_neg hni, actorAttackData_eq]
  dsimp only
  constructor
  · cases hm : item.magicalBonus <;> dsimp only <;> split_ifs <;>
      simp_all [List.append_assoc]
  · rfl

/-- Witness for the attack-term characterization: the melee weapon scenario
with proficiency 2, an mwak actor bonus of +1, activity bonus +0 and an
available magical bonus 1 yields the five ordered terms with the
proficiency value bound. -/
theorem attack_terms_characterization_witness :
    (getAttackData { prof := some { hasProficiency := true, term := 2 }, magicalBonus := some 1, magicAvailable := true } (some { bonuses := fun s => if s = "mwak" then some "+1" else none }) { typeValue := "melee", typeClassification := "weapon", bonus := "+0" }).parts
      = ["@mod", "@prof", "+1", "+0", "1"]
    ∧ (getAttackData { prof := some { hasProficiency := true, term := 2 }, magicalBonus := some 1, magicAvailable := true } (some { bonuses := fun s => if s = "mwak" then some "+1" else none }) { typeValue := "melee", typeClassification := "weapon", bonus := "+0" }).profData
      = some 2 := by
  have h := attack_terms_characterization
    { prof := some { hasProficiency := true, term := 2 }, magicalBonus := some 1, magicAvailable := true }
    { bonuses := fun s => if s = "mwak" then some "+1" else none }
    { typeValue := "melee", typeClassification := "weapon", bonus := "+0" }
    rfl
  exact ⟨h.1, h.2⟩

/-- The reduce seeded with the first element visits the first element once
more first, which changes nothing since no modifier is strictly greater
than itself. -/
theorem pickHighest_self (m : String → WithBot Int) (a : String)
    (l : List String) : pickHighest m a (a :: l) = pickHighest m a l := by
  simp [pickHighest]

/-- With every modifier at bottom (no actor), the reduce keeps its seed. -/
theorem pickHighest_bot (m : String → WithBot Int)
    (h : ∀ x, m x = ⊥) (a : String) (l : List String) :
    pickHighest m a l = a := by
  induction l with
  | nil => rfl
  | cons b t ih =>
    simp only [pickHighest, h a, h b, lt_irrefl, if_false]
    exact ih

/-- find? only depends on the predicate's values on the list's elements. -/
theorem find_pred_congr {α : Type} (p q : α → Bool) (l : List α)
    (h : ∀ x ∈ l, p x = q x) : l.find? p = l.find? q := by
  induction l with
  | nil => rfl
  | cons a t ih =>
    rw [List.find?_cons, List.find?_cons, h a (List.mem_cons_self a t)]
    cases hq : q a with
    | true => rfl
    | false => exact ih (fun x hx => h x (List.mem_cons_of_mem a hx))

/-- The strict-greater reduce computes the first element of the list whose
modifier is maximal: find? of the is-maximal predicate returns the fold. -/
theorem find_first_max (m : String → WithBot Int) (l : List String)
    (a : String) :
    List.find? (isMaxIn m (a :: l)) (a :: l) = some (pickHighest m a l) := by
  induction l generalizing a with
  | nil => simp [pickHighest, isMaxIn]
  | cons b t ih =>
    by_cases hba : m a < m b
    · have hPa : ¬ isMaxIn m (a :: b :: t) a = true := by
        intro hall
        simp only [isMaxIn, List.all_cons, Bool.and_eq_true,
          decide_eq_true_eq] at hall
        exact absurd hall.2.1 (not_le.mpr hba)
      rw [List.find?_cons_of_neg _ hPa]
      have hstep : pickHighest m a (b :: t) = pickHighest m b t := by
        simp [pickHighest, if_pos hba]
      rw [hstep, ← ih b]
      apply find_pred_congr
      intro x hx
      rw [Bool.eq_iff_iff]
      simp only [isMaxIn, List.all_cons, Bool.and_eq_true, decide_eq_true_eq]
      constructor
      · intro hh; exact ⟨hh.2.1, hh.2.2⟩
      · intro hh; exact ⟨le_trans (le_of_lt hba) hh.1, hh.1, hh.2⟩
    · have hba2 : m b ≤ m a := not_lt.mp hba
      have hstep : pickHighest m a (b :: t) = pickHighest m a t := by
        simp [pickHighest, if_neg hba]
      rw [hstep]
      cases hA : isMaxIn m (a :: t) a with
      | true =>
        have hPa : isMaxIn m (a :: b :: t) a = true := by
          simp only [isMaxIn, List.all_cons, Bool.and_eq_true,
            decide_eq_true_eq] at hA ⊢
          exact ⟨hA.1, hba2, hA.2⟩
        rw [List.find?_cons_of_pos _ hPa]
        have hres := ih a
        rw [List.find?_cons_of_pos _ hA] at hres
        exact hres
      | false =>
        have hAn : ¬ isMaxIn m (a :: t) a = true := by
          intro hh; rw [hA] at hh; exact Bool.false_ne_true hh
        have hPa : ¬ isMaxIn m (a :: b :: t) a = true := by
          intro hall
          simp only [isMaxIn, List.all_cons, Bool.and_eq_true,
            decide_eq_true_eq] at hall
          apply hAn
          simp only [isMaxIn, List.all_cons, Bool.and_eq_true,
            decide_eq_true_eq]
          exact ⟨hall.1, hall.2.2⟩
        have hPb : ¬ isMaxIn m (a :: b :: t) b = true := by
          intro hall
          simp only [isMaxIn, List.all_cons, Bool.and_eq_true,
            decide_eq_true_eq] at hall
          have heq : m a = m b := le_antisymm hall.1 hba2
          apply hAn
          simp only [isMaxIn, List.all_cons, Bool.and_eq_true,
            decide_eq_true_eq]
          refine ⟨le_refl _, ?_⟩
          have h3 := hall.2.2
          simp only [← heq] at h3
          exact h3
        rw [List.find?_cons_of_neg _ hPa, List.find?_cons_of_neg _ hPb]
        have hres := ih a
        rw [List.find?_cons_of_neg _ hAn] at hres
        rw [← hres]
        apply find_pred_congr
        intro x hx
        rw [Bool.eq_iff_iff]
        simp only [isMaxIn, List.all_cons, Bool.and_eq_true, decide_eq_true_eq]
        constructor
        · intro hh; exact ⟨hh.1, hh.2.2⟩
        · intro hh; exact ⟨hh.1, le_trans hba2 hh.1, hh.2⟩

/-- C7: the ability getter implements the specified resolution rule: null
(modelled as Option.none) for an empty available-ability set, the sole
element of a singleton, the element with the highest actor ability modifier
with ties broken by first-seen insertion order when an actor is present, and
the first element of the set when no actor is present. -/
theorem ability_selection_matches_spec (item : ItemSystem)
    (actor : Option ActorSystem) (atk : AttackFields) :
    ability item actor atk
      = specResolvedAbility (availableAbilities item actor atk) actor := by
  unfold ability specResolvedAbility
  cases havail : availableAbilities item actor atk with
  | nil => rfl
  | cons a rest =>
    cases rest with
    | nil => rfl
    | cons b t =>
      cases actor with
      | none =>
        dsimp only
        rw [pickHighest_self,
          pickHighest_bot (modValue fun _ => none) (fun x => rfl) a (b :: t)]
        rfl
      | some act =>
        dsimp only
        rw [pickHighest_self]
        exact (find_first_max (modValue act.abilities) (b :: t) a).symm
